import Mathlib

/-!
Verification development for the Xycar sensor-fusion system
(LaneKeepingSystem.cpp and CameraDetector.cpp).

The numeric type of the C++ code (float/double, template parameter PREC)
is modelled by exact rationals; the trigonometric functions cos and sin,
which the code takes from libm, are abstracted as an arbitrary pair of
functions bundled in a Trig structure, since every property at issue is
about the structure of the pipeline (which beam indices are read, in which
order points are produced, what is filtered) and not about the numerical
value of a cosine.
-/

namespace SensorFusion

/-- A 2D point, modelling cv::Point2f with exact coordinates. -/
structure Point2 where
  x : ℚ
  y : ℚ
deriving DecidableEq

/-- A 3D point, modelling cv::Point3f with exact coordinates. -/
structure Point3 where
  x : ℚ
  y : ℚ
  z : ℚ
deriving DecidableEq

/-- The part of sensor_msgs::LaserScan that the code reads: the ordered
range samples and the two angle parameters. -/
structure LaserScan where
  angle_min : ℚ
  angle_increment : ℚ
  ranges : List ℚ

/-- Abstract trigonometric functions standing for libm cos and sin. -/
structure Trig where
  cos : ℚ → ℚ
  sin : ℚ → ℚ

/-- One iteration of the loops in LaneKeepingSystem::scanCallback:
read ranges[i] (Option-valued indexing: none models the out-of-bounds
read of the C++ code), form theta = angle_min + i * angle_increment and
push the Cartesian point (r * cos theta, r * sin theta). -/
def rasterizeIndex (T : Trig) (scan : LaserScan) (i : ℕ) : Option Point2 :=
  (scan.ranges.get? i).map (fun r =>
    let theta := scan.angle_min + (i : ℚ) * scan.angle_increment
    ⟨r * T.cos theta, r * T.sin theta⟩)

/-- Run rasterizeIndex over a list of beam indices, collecting the points
in order; the whole run fails if any single read is out of bounds. -/
def rasterizeAll (T : Trig) (scan : LaserScan) : List ℕ → Option (List Point2)
  | [] => some []
  | i :: rest =>
      match rasterizeIndex T scan i, rasterizeAll T scan rest with
      | some p, some ps => some (p :: ps)
      | _, _ => none

/-- The index window [start, start + len) traversed by one for loop of
scanCallback, in increasing order. -/
def scanWindow (start len : ℕ) : List ℕ :=
  (List.range len).map (fun k => start + k)

/-- The beam indices read by LaneKeepingSystem::scanCallback: the left
loop runs i from lStart = 0 to lEnd = 126 + 1 exclusive, the right loop
runs i from rStart = 378 to rEnd = 504 + 1 exclusive. -/
def scanIndices : List ℕ :=
  scanWindow 0 (126 + 1) ++ scanWindow 378 (504 + 1 - 378)

/-- LaneKeepingSystem::scanCallback, rasterizing part: clears mLidarCoord
and pushes one Cartesian point per beam index of the left window followed
by the right window.  Returns none when the C++ code would read
scan->ranges out of bounds. -/
def scanCallback (T : Trig) (scan : LaserScan) : Option (List Point2) :=
  match rasterizeAll T scan (scanWindow 0 (126 + 1)),
        rasterizeAll T scan (scanWindow 378 (504 + 1 - 378)) with
  | some l, some r => some (l ++ r)
  | _, _ => none

/-- The point the specification assigns to beam index i: r = ranges[i]
(total read, defaulting to 0, only used under the hypothesis that the
index is in bounds), theta = angle_min + i * angle_increment, point
(r * cos theta, r * sin theta). -/
def specBeamPoint (T : Trig) (scan : LaserScan) (i : ℕ) : Point2 :=
  let r := scan.ranges.getD i 0
  let theta := scan.angle_min + (i : ℚ) * scan.angle_increment
  ⟨r * T.cos theta, r * T.sin theta⟩

/-- The reference rasterization stated by the specification: exactly one
Cartesian point per beam index in the windows 0 to 126 and 378 to 504, in
increasing beam-index order window by window. -/
def referenceRasterization (T : Trig) (scan : LaserScan) : List Point2 :=
  scanIndices.map (specBeamPoint T scan)

/- ------------------------------------------------------------------ -/
/- The fusion loop (LaneKeepingSystem::run) and its state.             -/
/- ------------------------------------------------------------------ -/

/-- The camera frame image buffer (cv::Mat mFrame); its contents are
irrelevant to the properties at issue, only its identity as a state
component matters, so it is modelled as a list of pixel values. -/
abbrev Frame := List ℕ

/-- The mutable members of LaneKeepingSystem touched by the pipeline:
mLidarCoord (the rasterized scan), mFrame (the latest camera frame) and
mXycarSpeed (the controller state). -/
structure SystemState where
  mLidarCoord : List Point2
  mFrame : Frame
  mXycarSpeed : ℚ
deriving DecidableEq

/-- The state left by the LaneKeepingSystem constructor: mLidarCoord is a
default-constructed (empty) std::vector; the frame and speed components
start from whatever the constructor and config give them. -/
def initState (frame0 : Frame) (speed0 : ℚ) : SystemState :=
  { mLidarCoord := [], mFrame := frame0, mXycarSpeed := speed0 }

/-- LaneKeepingSystem::scanCallback acting on the whole system state:
mLidarCoord is cleared and refilled from the new message; no other member
is touched.  none models the out-of-bounds read on a short scan. -/
def scanCallbackState (T : Trig) (s : SystemState) (scan : LaserScan) :
    Option SystemState :=
  match scanCallback T scan with
  | none => none
  | some coords => some { s with mLidarCoord := coords }

/-- The mounting-offset constant written literally in
LaneKeepingSystem::run: objectPoints.push_back(cv::Point3f(
mLidarCoord[i].y, -0.058, -mLidarCoord[i].x)). -/
def camOffset : ℚ := -0.058

/-- The per-point lidar-to-camera axis permutation of LaneKeepingSystem::run:
a rasterized point (x, y) becomes the camera-frame point (y, -0.058, -x). -/
def toCameraFrame (p : Point2) : Point3 :=
  ⟨p.y, camOffset, -p.x⟩

/-- The objectPoints vector built by the loop in LaneKeepingSystem::run:
one push_back of toCameraFrame per rasterized lidar point, in order. -/
def tickObjectPoints (lidarCoord : List Point2) : List Point3 :=
  lidarCoord.map toCameraFrame

/-- Modelled from the spec: CameraDetector::getProjectPoints is not under
src/ (only its call site in LaneKeepingSystem::run is).  The spec's
PointProjector applies rotation, translation and the pinhole-plus-
distortion model to each 3D point independently, returning a sequence of
2D pixel coordinates of the same length and order as the input; the
per-point map is abstracted as projectOne. -/
def getProjectPoints (projectOne : Point3 → Point2) (pts : List Point3) :
    List Point2 :=
  pts.map projectOne

/-- A detection rectangle as the spec's DetectionBox: cv::Rect geometry
(x, y, width, height). -/
structure DetectionBox where
  x : ℚ
  y : ℚ
  w : ℚ
  h : ℚ
deriving DecidableEq

/-- Boundary-inclusive point-in-rectangle containment test. -/
def inBox (p : Point2) (b : DetectionBox) : Bool :=
  decide (b.x ≤ p.x) && decide (p.x ≤ b.x + b.w) &&
  decide (b.y ≤ p.y) && decide (p.y ≤ b.y + b.h)

/-- Modelled from the spec: the two-argument CameraDetector::boundingBox
(detection association) is not under src/ (only its call site in
LaneKeepingSystem::run is).  The spec's DetectionAssociator returns the
back-reference indices of the projected points lying inside at least one
supplied box, each index reported once, in input order. -/
def associate (projected : List Point2) (boxes : List DetectionBox) :
    List ℕ :=
  (List.range projected.length).filter
    (fun i => boxes.any (inBox (projected.getD i ⟨0, 0⟩)))

/-- The outcome of one iteration of the while loop in
LaneKeepingSystem::run: idle when mLidarCoord is empty (the iteration
hits continue and performs no fusion work), fused with the emitted VCS
coordinate list otherwise. -/
inductive TickResult where
  | idle
  | fused (vcsCoords : List Point3)
deriving DecidableEq

/-- The obstacle list a tick hands downstream: nothing in an idle tick. -/
def TickResult.output : TickResult → List Point3
  | TickResult.idle => []
  | TickResult.fused l => l

/-- One iteration of the while loop in LaneKeepingSystem::run.  The
external collaborators are parameters: projectOne abstracts the
projection applied per point by getProjectPoints, detect abstracts the
DNN detector producing boxes from the current frame, toVCS abstracts
getVCSCoordPointsFromLidar.  When mLidarCoord is empty the iteration is
the continue statement; otherwise it converts every lidar point to
camera axes, projects all of them, associates against the boxes, and
emits one VCS point per associated index, read back from objectPoints at
that index. -/
def tick (projectOne : Point3 → Point2) (toVCS : Point3 → Point3)
    (detect : Frame → List DetectionBox) (s : SystemState) : TickResult :=
  if s.mLidarCoord.length = 0 then TickResult.idle
  else
    let objectPoints := tickObjectPoints s.mLidarCoord
    let lidarImagePoints := getProjectPoints projectOne objectPoints
    let bboxIdx := associate lidarImagePoints (detect s.mFrame)
    TickResult.fused
      (bboxIdx.map (fun idx => toVCS (objectPoints.getD idx ⟨0, 0, 0⟩)))

/- ------------------------------------------------------------------ -/
/- CameraDetector::solvePnP (extrinsic calibration).                   -/
/- ------------------------------------------------------------------ -/

/-- A rotation-and-translation pair as returned by the external
cv::solvePnP call (rvec, tvec). -/
structure PoseVecs where
  rvec : Point3
  tvec : Point3

/-- CameraDetector::solvePnP: prints the input sizes and the intrinsics,
calls the external cv::solvePnP (abstracted as solveExt) on whatever
correspondence set it was handed, prints the solve result and the
reprojection of the object points, and returns.  The body contains no
size, count or degeneracy check and no error path of its own: the
Except.error constructor is never produced. -/
def solvePnP (solveExt : List Point3 → List Point2 → PoseVecs)
    (imagePoints : List Point2) (objectPoints : List Point3) :
    Except String PoseVecs :=
  Except.ok (solveExt objectPoints imagePoints)

/- ------------------------------------------------------------------ -/
/- CameraDetector::boundingBox (one-argument): the detector filter.    -/
/- ------------------------------------------------------------------ -/

/-- One output row of the DNN as CameraDetector::boundingBox reads it:
data[0..3] are the normalized box center and extent, scores is the
colRange(5, cols) slice holding one confidence per class. -/
structure DnnRow where
  cx : ℚ
  cy : ℚ
  bw : ℚ
  bh : ℚ
  scores : List ℚ
deriving DecidableEq

/-- cv::minMaxLoc restricted to what the code uses: the maximum value of
the scores row together with the index of its first occurrence (minMaxLoc
updates its maximum only on a strictly greater value); none on an empty
row. -/
def minMaxLocMax (scores : List ℚ) : Option (ℚ × ℕ) :=
  (List.range scores.length).foldl
    (fun acc i =>
      match scores.get? i, acc with
      | some v, none => some (v, i)
      | some v, some (mv, mi) =>
          if mv < v then some (v, i) else some (mv, mi)
      | none, a => a)
    none

/-- The emission condition of CameraDetector::boundingBox:
confidence > mConfThreshold && classIdPoint.x == 4. -/
def rowPasses (thr : ℚ) (r : DnnRow) : Bool :=
  match minMaxLocMax r.scores with
  | some (conf, cls) => decide (thr < conf) && (cls == 4)
  | none => false

/-- The candidate rows whose class id, confidence and rectangle are
pushed into classIds, confidences and boxes before cv::dnn::NMSBoxes
runs: exactly the rows satisfying the emission condition, in row order. -/
def candidateRows (thr : ℚ) (rows : List DnnRow) : List DnnRow :=
  rows.filter (rowPasses thr)

/- ------------------------------------------------------------------ -/
/- Concrete inputs used by witnesses and failing-input evaluations.    -/
/- ------------------------------------------------------------------ -/

/-- A concrete Trig instance: both trigonometric functions constantly 0. -/
def zeroTrig : Trig := ⟨fun _ => 0, fun _ => 0⟩

/-- A concrete scan with exactly 505 range samples, all 0. -/
def scan505 : LaserScan := ⟨0, 0, List.replicate 505 0⟩

/-- The rasterization of scan505 under zeroTrig: 254 copies of the
origin (127 beams per window). -/
def zeroRaster : List Point2 := List.replicate 254 ⟨0, 0⟩

/-- A pre-callback state holding a stale point from an earlier scan. -/
def staleStateA : SystemState := ⟨[⟨5, 5⟩], [7], 9⟩

/-- A second pre-callback state with different stale contents. -/
def staleStateB : SystemState := ⟨[⟨3, 4⟩], [], 0⟩

/-- staleStateA after scanCallback consumes scan505. -/
def postStateA : SystemState := ⟨zeroRaster, [7], 9⟩

/-- staleStateB after scanCallback consumes scan505. -/
def postStateB : SystemState := ⟨zeroRaster, [], 0⟩

/-- The first three entries of CameraDetector::Generate2DPoints: a
correspondence catalog cut down to 3 image points. -/
def threePointImage : List Point2 :=
  [⟨84857/1000, 216255/1000⟩, ⟨108035/1000, 215645/1000⟩,
   ⟨192209/1000, 216864/1000⟩]

/-- The first three entries of CameraDetector::Generate3DLidarPoints: a
correspondence catalog cut down to 3 object points. -/
def threePointObject : List Point3 :=
  [⟨-940092/1000000, -105/1000, 134259/100000⟩,
   ⟨-840092/1000000, -105/1000, 134395/100000⟩,
   ⟨-526456/1000000, -105/1000, 134139/100000⟩]

/-- A rasterized lidar point with positive x: its camera-frame image
(y, -0.058, -x) has depth -x < 0, i.e. it lies behind the camera. -/
def behindLidarPoint : Point2 := ⟨1, 0⟩

/-- A system state whose current scan consists of that single point. -/
def behindCameraState : SystemState := ⟨[behindLidarPoint], [], 0⟩

/-- The degenerate box whose inclusive containment test accepts exactly
the pixel p. -/
def boxAt (p : Point2) : DetectionBox := ⟨p.x, p.y, 0, 0⟩

/- ------------------------------------------------------------------ -/
/- Shared lemmas about the rasterizer.                                 -/
/- ------------------------------------------------------------------ -/

theorem get?_eq_some_getD (l : List ℚ) (i : ℕ) (h : i < l.length) :
    l.get? i = some (l.getD i 0) := by
  induction l generalizing i with
  | nil => simp at h
  | cons a t ih =>
      cases i with
      | zero => simp [List.get?, List.getD]
      | succ j =>
          simp only [List.length_cons] at h
          simpa [List.get?, List.getD] using ih j (Nat.lt_of_succ_lt_succ h)

theorem rasterizeIndex_eq_spec (T : Trig) (scan : LaserScan) (i : ℕ)
    (h : i < scan.ranges.length) :
    rasterizeIndex T scan i = some (specBeamPoint T scan i) := by
  unfold rasterizeIndex
  rw [get?_eq_some_getD scan.ranges i h]
  rfl

theorem rasterizeAll_eq_map (T : Trig) (scan : LaserScan) (l : List ℕ)
    (h : ∀ i ∈ l, i < scan.ranges.length) :
    rasterizeAll T scan l = some (l.map (specBeamPoint T scan)) := by
  induction l with
  | nil => rfl
  | cons i rest ih =>
      have hi : i < scan.ranges.length := h i (List.mem_cons_self i rest)
      have hrest : ∀ j ∈ rest, j < scan.ranges.length :=
        fun j hj => h j (List.mem_cons_of_mem i hj)
      simp [rasterizeAll, rasterizeIndex_eq_spec T scan i hi, ih hrest]

theorem rasterizeAll_isSome_mem (T : Trig) (scan : LaserScan) (l : List ℕ)
    (h : (rasterizeAll T scan l).isSome) :
    ∀ i ∈ l, (scan.ranges.get? i).isSome := by
  induction l with
  | nil => intro i hi; simp at hi
  | cons j rest ih =>
      intro i hi
      rcases List.mem_cons.mp hi with rfl | hmem
      · cases hj : rasterizeIndex T scan i with
        | none =>
            exfalso
            simp [rasterizeAll, hj] at h
        | some p =>
            simp only [rasterizeIndex, Option.map_eq_some'] at hj
            obtain ⟨r, hr, _⟩ := hj
            rw [hr]
            rfl
      · apply ih _ i hmem
        cases hj : rasterizeIndex T scan j with
        | none => simp [rasterizeAll, hj] at h
        | some p =>
            cases hrest : rasterizeAll T scan rest with
            | none => simp [rasterizeAll, hj, hrest] at h
            | some ps => simp [hrest]

theorem mem_scanWindow (s len i : ℕ) :
    i ∈ scanWindow s len ↔ ∃ k, k < len ∧ i = s + k := by
  simp only [scanWindow, List.mem_map, List.mem_range]
  constructor
  · rintro ⟨k, hk, rfl⟩; exact ⟨k, hk, rfl⟩
  · rintro ⟨k, hk, rfl⟩; exact ⟨k, hk, rfl⟩

theorem scanWindow_bound (s len : ℕ) : ∀ i ∈ scanWindow s len, i < s + len := by
  intro i hi
  obtain ⟨k, hk, rfl⟩ := (mem_scanWindow s len i).mp hi
  omega

theorem scanIndices_bound : ∀ i ∈ scanIndices, i < 505 := by
  intro i hi
  rcases List.mem_append.mp hi with hl | hr
  · have := scanWindow_bound 0 (126 + 1) i hl; omega
  · have := scanWindow_bound 378 (504 + 1 - 378) i hr; omega

theorem mem_scanIndices_504 : (504 : ℕ) ∈ scanIndices := by
  apply List.mem_append_right
  exact (mem_scanWindow 378 (504 + 1 - 378) 504).mpr ⟨126, by omega, by omega⟩

theorem scanCallback_eq_of_length (T : Trig) (scan : LaserScan)
    (h : 505 ≤ scan.ranges.length) :
    scanCallback T scan = some (referenceRasterization T scan) := by
  have hb : ∀ i ∈ scanIndices, i < scan.ranges.length := fun i hi =>
    lt_of_lt_of_le (scanIndices_bound i hi) h
  have hl : ∀ i ∈ scanWindow 0 (126 + 1), i < scan.ranges.length :=
    fun i hi => hb i (List.mem_append_left _ hi)
  have hr : ∀ i ∈ scanWindow 378 (504 + 1 - 378), i < scan.ranges.length :=
    fun i hi => hb i (List.mem_append_right _ hi)
  simp [scanCallback, rasterizeAll_eq_map T scan _ hl,
        rasterizeAll_eq_map T scan _ hr, referenceRasterization,
        scanIndices, List.map_append]

theorem rasterizeAll_length (T : Trig) (scan : LaserScan) (l : List ℕ)
    (ps : List Point2) (h : rasterizeAll T scan l = some ps) :
    ps.length = l.length := by
  induction l generalizing ps with
  | nil => simp [rasterizeAll] at h; simp [← h]
  | cons i rest ih =>
      cases hj : rasterizeIndex T scan i with
      | none => simp [rasterizeAll, hj] at h
      | some p =>
          cases hrest : rasterizeAll T scan rest with
          | none => simp [rasterizeAll, hj, hrest] at h
          | some qs =>
              simp only [rasterizeAll, hj, hrest] at h
              cases h
              simp [ih qs hrest]

theorem scanCallback_some_length (T : Trig) (scan : LaserScan)
    (l : List Point2) (h : scanCallback T scan = some l) :
    l.length = 254 := by
  cases hl : rasterizeAll T scan (scanWindow 0 (126 + 1)) with
  | none => simp [scanCallback, hl] at h
  | some a =>
      cases hr : rasterizeAll T scan (scanWindow 378 (504 + 1 - 378)) with
      | none => simp [scanCallback, hl, hr] at h
      | some b =>
          simp only [scanCallback, hl, hr] at h
          cases h
          have ha := rasterizeAll_length T scan _ a hl
          have hb := rasterizeAll_length T scan _ b hr
          simp [scanWindow] at ha hb
          simp [ha, hb]

/- ------------------------------------------------------------------ -/
/- Shared lemmas about list indexing.                                  -/
/- ------------------------------------------------------------------ -/

theorem getD_map_lt {α β : Type} (f : α → β) (l : List α) (i : ℕ)
    (d : α) (e : β) (h : i < l.length) :
    (l.map f).getD i e = f (l.getD i d) := by
  induction l generalizing i with
  | nil => simp at h
  | cons a t ih =>
      cases i with
      | zero => simp [List.getD]
      | succ j =>
          simp only [List.length_cons] at h
          simpa [List.getD] using ih j (Nat.lt_of_succ_lt_succ h)

theorem getD_range (n i : ℕ) (h : i < n) : (List.range n).getD i 0 = i := by
  rw [List.getD_eq_getElem _ _ (by simpa using h)]
  simp

theorem getD_scanWindow (s len j : ℕ) (h : j < len) :
    (scanWindow s len).getD j 0 = s + j := by
  unfold scanWindow
  rw [getD_map_lt (fun k => s + k) (List.range len) j 0 0 (by simpa using h)]
  rw [getD_range len j h]

theorem getD_append_lt {α : Type} (l l' : List α) (i : ℕ) (d : α)
    (h : i < l.length) : (l ++ l').getD i d = l.getD i d := by
  induction l generalizing i with
  | nil => simp at h
  | cons a t ih =>
      cases i with
      | zero => simp [List.getD]
      | succ j =>
          simp only [List.length_cons] at h
          simpa [List.getD] using ih j (Nat.lt_of_succ_lt_succ h)

theorem getD_append_right_len {α : Type} (l l' : List α) (i : ℕ) (d : α) :
    (l ++ l').getD (l.length + i) d = l'.getD i d := by
  induction l with
  | nil => simp
  | cons a t ih => simpa [List.getD, Nat.succ_add] using ih

/- ------------------------------------------------------------------ -/
/- Shared lemmas about association.                                    -/
/- ------------------------------------------------------------------ -/

theorem inBox_boxAt_self (p : Point2) : inBox p (boxAt p) = true := by
  simp [inBox, boxAt]

theorem associate_nil_boxes (projected : List Point2) :
    associate projected [] = [] := by
  simp [associate]

theorem mem_associate (projected : List Point2) (boxes : List DetectionBox)
    (idx : ℕ) :
    idx ∈ associate projected boxes ↔
      idx < projected.length ∧
        boxes.any (inBox (projected.getD idx ⟨0, 0⟩)) = true := by
  simp [associate, List.mem_filter]

/- ------------------------------------------------------------------ -/
/- Evaluation lemmas at the concrete witness inputs.                   -/
/- ------------------------------------------------------------------ -/

theorem scan505_length : 505 ≤ scan505.ranges.length := by
  simp only [scan505, List.length_replicate]
  omega

theorem referenceRasterization_zero :
    referenceRasterization zeroTrig scan505 = zeroRaster := by
  unfold referenceRasterization zeroRaster
  have hconst : ∀ i ∈ scanIndices,
      specBeamPoint zeroTrig scan505 i = ⟨0, 0⟩ := by
    intro i _
    simp [specBeamPoint, zeroTrig]
  rw [List.map_congr_left hconst, List.map_const']
  have hlen : scanIndices.length = 254 := by
    simp [scanIndices, scanWindow]
  rw [hlen]

theorem scanCallbackState_concrete (s : SystemState) :
    scanCallbackState zeroTrig s scan505 =
      some { s with mLidarCoord := zeroRaster } := by
  have hc := scanCallback_eq_of_length zeroTrig scan505 scan505_length
  rw [referenceRasterization_zero] at hc
  unfold scanCallbackState
  rw [hc]

/- ------------------------------------------------------------------ -/
/- Claim theorems.                                                     -/
/- ------------------------------------------------------------------ -/

/-- Claim C1: for every LiDAR scan message with enough range samples
(at least 505), the scan rasterizer output equals the reference
rasterization: exactly one Cartesian point per beam index of the windows
0 to 126 and 378 to 504 (254 points total), window by window in
increasing beam-index order, where position j of the output corresponds
to beam index j in the first window and beam index 378 + j in the
second, and each point is (r cos theta, r sin theta) for r = ranges[i]
and theta = angle_min + i * angle_increment. -/
theorem scanCallback_matches_reference (T : Trig) (scan : LaserScan)
    (h : 505 ≤ scan.ranges.length) :
    scanCallback T scan = some (referenceRasterization T scan) ∧
    (referenceRasterization T scan).length = 254 ∧
    (∀ j, j < 127 →
      (referenceRasterization T scan).getD j ⟨0, 0⟩ =
        specBeamPoint T scan j) ∧
    (∀ j, j < 127 →
      (referenceRasterization T scan).getD (127 + j) ⟨0, 0⟩ =
        specBeamPoint T scan (378 + j)) := by
  refine ⟨scanCallback_eq_of_length T scan h, ?_, ?_, ?_⟩
  · simp [referenceRasterization, scanIndices, scanWindow]
  · intro j hj
    have hb : j < scanIndices.length := by
      simp only [scanIndices, scanWindow, List.length_append,
                 List.length_map, List.length_range]
      omega
    rw [referenceRasterization,
        getD_map_lt (specBeamPoint T scan) scanIndices j 0 ⟨0, 0⟩ hb]
    have hidx : scanIndices.getD j 0 = j := by
      rw [scanIndices,
          getD_append_lt _ _ j 0 (by simp only [scanWindow,
            List.length_map, List.length_range]; omega),
          getD_scanWindow 0 (126 + 1) j (by omega)]
      omega
    rw [hidx]
  · intro j hj
    have h1 : (scanWindow 0 (126 + 1)).length = 127 := by
      simp [scanWindow]
    have hb : 127 + j < scanIndices.length := by
      simp only [scanIndices, scanWindow, List.length_append,
                 List.length_map, List.length_range]
      omega
    rw [referenceRasterization,
        getD_map_lt (specBeamPoint T scan) scanIndices (127 + j) 0 ⟨0, 0⟩ hb]
    have hidx : scanIndices.getD (127 + j) 0 = 378 + j := by
      rw [scanIndices, ← h1, getD_append_right_len]
      exact getD_scanWindow 378 (504 + 1 - 378) j (by omega)
    rw [hidx]

/-- Witness for claim C1: the theorem applied to the all-zero 505-sample
scan under the constant-zero trigonometric pair. -/
theorem scanCallback_matches_reference_witness :
    scanCallback zeroTrig scan505 =
      some (referenceRasterization zeroTrig scan505) ∧
    (referenceRasterization zeroTrig scan505).length = 254 ∧
    (∀ j, j < 127 →
      (referenceRasterization zeroTrig scan505).getD j ⟨0, 0⟩ =
        specBeamPoint zeroTrig scan505 j) ∧
    (∀ j, j < 127 →
      (referenceRasterization zeroTrig scan505).getD (127 + j) ⟨0, 0⟩ =
        specBeamPoint zeroTrig scan505 (378 + j)) :=
  scanCallback_matches_reference zeroTrig scan505
    (by simp only [scan505, List.length_replicate]; omega)

/-- Claim C2 (evaluation of the code at the failing input): the pose
solve CameraDetector::solvePnP performs no precondition check at all.
On the 3-point correspondence catalog (fewer than the 4 matched pairs
the specification demands) it still succeeds, and on every input,
matched or mismatched in length, it returns without signalling any
error, so the system never halts at calibration. -/
theorem solvePnP_never_fails_fast
    (solveExt : List Point3 → List Point2 → PoseVecs) :
    threePointImage.length < 4 ∧
    (solvePnP solveExt threePointImage threePointObject).isOk = true ∧
    ∀ (imagePoints : List Point2) (objectPoints : List Point3),
      (solvePnP solveExt imagePoints objectPoints).isOk = true := by
  exact ⟨by simp [threePointImage], rfl, fun _ _ => rfl⟩

/-- Claim C3 (evaluation of the code at the failing input): the fusion
tick of LaneKeepingSystem::run applies no depth check anywhere between
the lidar-to-camera conversion, the projection and the association.  The
rasterized point (1, 0) maps to the camera-frame point (0, -0.058, -1)
with non-positive depth, yet for every projection function its projected
pixel participates in association, and with a detection box at that
pixel the point contributes a fused obstacle. -/
theorem behind_camera_point_reaches_output (projectOne : Point3 → Point2)
    (toVCS : Point3 → Point3) :
    (toCameraFrame behindLidarPoint).z < 0 ∧
    tick projectOne toVCS
      (fun _ => [boxAt (projectOne (toCameraFrame behindLidarPoint))])
      behindCameraState =
      TickResult.fused [toVCS (toCameraFrame behindLidarPoint)] := by
  constructor
  · norm_num [toCameraFrame, behindLidarPoint, camOffset]
  · have hpix : inBox (projectOne (toCameraFrame behindLidarPoint))
        (boxAt (projectOne (toCameraFrame behindLidarPoint))) = true :=
      inBox_boxAt_self _
    simp [tick, behindCameraState, tickObjectPoints, getProjectPoints,
          associate, List.range_succ, List.filter_cons, hpix]

/-- Claim C4: projection returns one 2D pixel per 3D input point, same
length, result index i corresponding to input index i, and every index
the associator returns is a valid index into the pre-projection point
list whose entry is the 3D point whose projection matched a box. -/
theorem projection_preserves_indexing (projectOne : Point3 → Point2)
    (pts : List Point3) (boxes : List DetectionBox) :
    (getProjectPoints projectOne pts).length = pts.length ∧
    (∀ i, i < pts.length →
      (getProjectPoints projectOne pts).getD i ⟨0, 0⟩ =
        projectOne (pts.getD i ⟨0, 0, 0⟩)) ∧
    (∀ idx, idx ∈ associate (getProjectPoints projectOne pts) boxes →
      idx < pts.length ∧
      boxes.any (inBox (projectOne (pts.getD idx ⟨0, 0, 0⟩))) = true) := by
  refine ⟨by simp [getProjectPoints], ?_, ?_⟩
  · intro i hi
    unfold getProjectPoints
    exact getD_map_lt projectOne pts i ⟨0, 0, 0⟩ ⟨0, 0⟩ hi
  · intro idx hidx
    rw [mem_associate] at hidx
    obtain ⟨hlt, hany⟩ := hidx
    have hlt2 : idx < pts.length := by
      simpa [getProjectPoints] using hlt
    refine ⟨hlt2, ?_⟩
    rw [show (getProjectPoints projectOne pts).getD idx ⟨0, 0⟩ =
          projectOne (pts.getD idx ⟨0, 0, 0⟩) by
        unfold getProjectPoints
        exact getD_map_lt projectOne pts idx ⟨0, 0, 0⟩ ⟨0, 0⟩ hlt2] at hany
    exact hany

/-- Claim C5: the camera-frame point submitted to projection is obtained
from each rasterized point (x, y) by the single fixed axis permutation
(y, h, -x) with the one constant mounting offset h = -0.058, identical
for every point. -/
theorem tickObjectPoints_fixed_permutation (coords : List Point2) :
    (tickObjectPoints coords).length = coords.length ∧
    ∀ i, i < coords.length →
      (tickObjectPoints coords).getD i ⟨0, 0, 0⟩ =
        ⟨(coords.getD i ⟨0, 0⟩).y, -(58 / 1000),
         -((coords.getD i ⟨0, 0⟩).x)⟩ := by
  constructor
  · simp [tickObjectPoints]
  · intro i hi
    unfold tickObjectPoints
    rw [getD_map_lt toCameraFrame coords i ⟨0, 0⟩ ⟨0, 0, 0⟩ hi]
    unfold toCameraFrame camOffset
    norm_num

/-- Claim C6: each arriving LiDAR message wholly replaces the stored
rasterized point set.  When the callback completes, the new mLidarCoord
is exactly the rasterization of that message (so it is a function of
the new message alone, as running the callback from any two prior
states shows), and no other pipeline state component is modified. -/
theorem scanCallback_replaces_state (T : Trig) (s1 s2 : SystemState)
    (scan : LaserScan) (out1 out2 : SystemState)
    (h1 : scanCallbackState T s1 scan = some out1)
    (h2 : scanCallbackState T s2 scan = some out2) :
    scanCallback T scan = some out1.mLidarCoord ∧
    out1.mLidarCoord = out2.mLidarCoord ∧
    out1.mFrame = s1.mFrame ∧
    out1.mXycarSpeed = s1.mXycarSpeed := by
  cases hc : scanCallback T scan with
  | none => simp [scanCallbackState, hc] at h1
  | some coords =>
      simp only [scanCallbackState, hc] at h1 h2
      cases h1
      cases h2
      exact ⟨rfl, rfl, rfl, rfl⟩

/-- Witness for claim C6: the theorem applied to the all-zero 505-sample
scan arriving in two different stale states; the hypotheses are
discharged by computation. -/
theorem scanCallback_replaces_state_witness :
    scanCallback zeroTrig scan505 = some postStateA.mLidarCoord ∧
    postStateA.mLidarCoord = postStateB.mLidarCoord ∧
    postStateA.mFrame = staleStateA.mFrame ∧
    postStateA.mXycarSpeed = staleStateA.mXycarSpeed :=
  scanCallback_replaces_state zeroTrig staleStateA staleStateB scan505
    postStateA postStateB (scanCallbackState_concrete staleStateA)
    (scanCallbackState_concrete staleStateB)

/-- Claim C7: in the Idle state (no LiDAR data yet: mLidarCoord empty,
as it is right after construction) every fusion tick is the continue
statement, performing no projection, association, conversion or
emission and raising no error; and any successfully processed LiDAR
message leaves 254 rasterized points, so the loop is in the Fusing
state from the first message on. -/
theorem fusionLoop_idle_until_first_scan :
    (∀ (frame0 : Frame) (speed0 : ℚ),
      (initState frame0 speed0).mLidarCoord = []) ∧
    (∀ (projectOne : Point3 → Point2) (toVCS : Point3 → Point3)
       (detect : Frame → List DetectionBox) (s : SystemState),
      s.mLidarCoord = [] →
        tick projectOne toVCS detect s = TickResult.idle) ∧
    (∀ (T : Trig) (s : SystemState) (scan : LaserScan)
       (out : SystemState),
      scanCallbackState T s scan = some out →
        out.mLidarCoord.length = 254) := by
  refine ⟨fun _ _ => rfl, ?_, ?_⟩
  · intro projectOne toVCS detect s hs
    simp [tick, hs]
  · intro T s scan out h
    cases hc : scanCallback T scan with
    | none => simp [scanCallbackState, hc] at h
    | some coords =>
        simp only [scanCallbackState, hc] at h
        cases h
        simpa using scanCallback_some_length T scan coords hc

/-- Claim C8: a tick whose detection box list is empty emits the empty
fused obstacle sequence, and a tick whose projected-point list is empty
(no rasterized scan) emits nothing either; neither case is an error. -/
theorem tick_empty_boxes_empty_output (projectOne : Point3 → Point2)
    (toVCS : Point3 → Point3) (detect : Frame → List DetectionBox)
    (s : SystemState) :
    (detect s.mFrame = [] →
      (tick projectOne toVCS detect s).output = []) ∧
    (s.mLidarCoord = [] →
      (tick projectOne toVCS detect s).output = []) := by
  constructor
  · intro hd
    by_cases hl : s.mLidarCoord.length = 0
    · simp [tick, hl, TickResult.output]
    · simp [tick, hl, hd, associate_nil_boxes, TickResult.output]
  · intro hs
    simp [tick, hs, TickResult.output]

/-- Claim C9: the scan callback reads beam indices 0 through 126 and
378 through 504 unconditionally; in the Option-valued embedding the
out-of-bounds branch is avoided exactly when the message carries at
least 505 range samples, and any shorter scan makes the callback hit an
out-of-bounds read. -/
theorem scanCallback_isSome_iff_length (T : Trig) (scan : LaserScan) :
    (scanCallback T scan).isSome = true ↔ 505 ≤ scan.ranges.length := by
  constructor
  · intro h
    cases hl : rasterizeAll T scan (scanWindow 0 (126 + 1)) with
    | none => simp [scanCallback, hl] at h
    | some a =>
        cases hr : rasterizeAll T scan (scanWindow 378 (504 + 1 - 378)) with
        | none => simp [scanCallback, hl, hr] at h
        | some b =>
            have hmem : (504 : ℕ) ∈ scanWindow 378 (504 + 1 - 378) :=
              (mem_scanWindow 378 (504 + 1 - 378) 504).mpr
                ⟨126, by omega, by omega⟩
            have h504 := rasterizeAll_isSome_mem T scan _
              (by simp [hr]) 504 hmem
            by_contra hlen
            push_neg at hlen
            have hnone : scan.ranges.get? 504 = none :=
              List.get?_eq_none.mpr (by omega)
            rw [hnone] at h504
            simp at h504
  · intro h
    rw [scanCallback_eq_of_length T scan h]
    rfl

/-- Claim C10: CameraDetector::boundingBox pushes a candidate detection
(class id, confidence, rectangle) before non-maximum suppression exactly
for the DNN rows whose best-scoring class index is 4 with confidence
strictly above the threshold; every row whose best class differs from 4
is discarded there, so only that single class can ever reach the fusion
pipeline. -/
theorem boundingBox_emits_only_class4 (thr : ℚ) (rows : List DnnRow)
    (r : DnnRow) :
    r ∈ candidateRows thr rows ↔
      r ∈ rows ∧
        ∃ conf, minMaxLocMax r.scores = some (conf, 4) ∧ thr < conf := by
  unfold candidateRows
  rw [List.mem_filter]
  apply and_congr_right
  intro _
  unfold rowPasses
  cases h : minMaxLocMax r.scores with
  | none => simp
  | some pair =>
      obtain ⟨conf, cls⟩ := pair
      simp only [Bool.and_eq_true, decide_eq_true_eq, beq_iff_eq]
      constructor
      · rintro ⟨hconf, rfl⟩
        exact ⟨conf, rfl, hconf⟩
      · rintro ⟨conf2, heq, hconf⟩
        rcases Option.some.inj heq with heq2
        rcases Prod.mk.injEq .. ▸ heq2 with ⟨hc, hcls⟩
        exact ⟨hc ▸ hconf, hcls⟩

end SensorFusion
